import Mathlib

/-!
Shallow embedding of `src/index.js` of Alatius/electron-window-state.

JS numbers are modelled as `ℚ` (all arithmetic in the source is exact on
the integer-valued inputs the code handles); possibly-absent record fields
are `Option ℚ` / `Option Bool` (`none` = the property is absent).  The one
place where a non-finite JS value can arise is the division in
`partOfWindowWithinBounds`: `jdiv` returns `none` for a zero divisor,
modelling the JS result `NaN` (the numerator is provably `0` whenever the
denominator is, so `Infinity` cannot arise there).  A JS comparison
against `NaN` is `false`, which the `scanStep` `match` reproduces.
-/

namespace ElectronWindowState

/-- Display bounds as delivered by `screen.getAllDisplays()[i].bounds`:
an `{x, y, width, height}` rectangle in virtual-desktop coordinates. -/
structure Rect where
  x : ℚ
  y : ℚ
  width : ℚ
  height : ℚ
deriving DecidableEq

/-- The in-memory `state` object at points where its four geometric fields
are present numbers (the geometry functions are reached only under
`hasBounds`).  `isMaximized` / `isFullScreen` are `none` when the property
is absent from the object. -/
structure WinState where
  x : ℚ
  y : ℚ
  width : ℚ
  height : ℚ
  isMaximized : Option Bool
  isFullScreen : Option Bool
deriving DecidableEq

/-- The `state` object as loaded from persistence: every field may be
absent.  Non-number junk in a numeric field also fails
`Number.isInteger`, so `none` covers every value that is not a number. -/
structure RawState where
  x : Option ℚ
  y : Option ℚ
  width : Option ℚ
  height : Option ℚ
  isMaximized : Option Bool
  isFullScreen : Option Bool
deriving DecidableEq

/-- The configuration options the reconciliation/validation path reads:
`config.defaultWidth` and `config.defaultHeight` (absent when the caller
did not pass them). -/
structure Config where
  defaultWidth : Option ℚ
  defaultHeight : Option ℚ
deriving DecidableEq

/-- JS `v || d` on an optional number: absent and `0` are falsy. -/
def jsOr (v : Option ℚ) (d : ℚ) : ℚ :=
  match v with
  | none => d
  | some q => if q = 0 then d else q

/-- JS division, `none` = the non-finite result of a zero divisor
(`0/0 = NaN`; the callers below never divide a nonzero numerator by
zero, so `none` faithfully stands for `NaN`). -/
def jdiv (a b : ℚ) : Option ℚ :=
  if b = 0 then none else some (a / b)

/-- `resetStateToDefault` (src/index.js 36-44): replaces the whole state
object, so the mode flags are absent afterwards. -/
def resetStateToDefault (cfg : Config) : WinState :=
  { width := jsOr cfg.defaultWidth 800
    height := jsOr cfg.defaultHeight 600
    x := 0
    y := 0
    isMaximized := none
    isFullScreen := none }

/-- One axis of `moveWithinBounds`: the translate step run after the
shrink step, with `w` the already-shrunk extent. -/
def clampPos (x w bx bw : ℚ) : ℚ :=
  if x < bx then bx
  else if x + w > bx + bw then bx + bw - w
  else x

/-- `moveWithinBounds` (src/index.js 46-60): shrink each extent to the
bounds' extent, then translate that axis so the edges fall inside; the
source updates `state.width` before using it in the `x` comparison, hence
`clampPos` receives the shrunk extent. -/
def moveWithinBounds (s : WinState) (b : Rect) : WinState :=
  let width := min s.width b.width
  let height := min s.height b.height
  { s with
    width := width
    height := height
    x := clampPos s.x width b.x b.width
    y := clampPos s.y height b.y b.height }

/-- `partOfWindowWithinBounds` (src/index.js 62-66): visible area divided
by the window's own area; no guard on a zero area, so a zero-area state
yields `0/0`, i.e. `NaN` (`none` here). -/
def partOfWindowWithinBounds (s : WinState) (b : Rect) : Option ℚ :=
  let visibleWidth := max 0 (min (s.x + s.width) (b.x + b.width) - max s.x b.x)
  let visibleHeight := max 0 (min (s.y + s.height) (b.y + b.height) - max s.y b.y)
  jdiv (visibleWidth * visibleHeight) (s.width * s.height)

/-- The body of the `forEach` in `ensureWindowVisibleOnSomeDisplay`
(src/index.js 71-77): `visibility > bestVisibility` is false when the
ratio is `NaN`, so the accumulator is kept in that case. -/
def scanStep (s : WinState) (acc : Option Rect × ℚ) (d : Rect) : Option Rect × ℚ :=
  match partOfWindowWithinBounds s d with
  | some visibility => if acc.2 < visibility then (some d, visibility) else acc
  | none => acc

/-- The display scan of `ensureWindowVisibleOnSomeDisplay`: fold of
`scanStep` over `screen.getAllDisplays()` starting from
`bestBounds = null`, `bestVisibility = 0`. -/
def scanDisplays (s : WinState) (ds : List Rect) : Option Rect × ℚ :=
  ds.foldl (scanStep s) (none, 0)

/-- `ensureWindowVisibleOnSomeDisplay` (src/index.js 68-87): clamp into
the best display when partially visible, keep the state when fully
visible, reset to defaults when no display was recorded as best. -/
def ensureWindowVisibleOnSomeDisplay (cfg : Config) (ds : List Rect) (s : WinState) : WinState :=
  match scanDisplays s ds with
  | (some bestBounds, bestVisibility) =>
      if bestVisibility < 1 then moveWithinBounds s bestBounds else s
  | (none, _) => resetStateToDefault cfg

/-- JS `Number.isInteger` on a possibly-absent field. -/
def isInt : Option ℚ → Bool
  | none => false
  | some q => q.den == 1

/-- JS `v > 0` on a possibly-absent field (`undefined > 0` is false). -/
def jsPos : Option ℚ → Bool
  | none => false
  | some q => decide (0 < q)

/-- JS truthiness of a possibly-absent boolean field. -/
def truthy : Option Bool → Bool
  | none => false
  | some b => b

/-- `hasBounds` (src/index.js 28-34) for a non-null state object. -/
def hasBounds (s : RawState) : Bool :=
  isInt s.x && isInt s.y &&
    (isInt s.width && jsPos s.width) &&
    (isInt s.height && jsPos s.height)

/-- View of a state object that passed `hasBounds` as a `WinState`; under
`hasBounds` all four numeric fields are present, so the `getD` defaults
are never observable there. -/
def toWinState (r : RawState) : WinState :=
  { x := r.x.getD 0
    y := r.y.getD 0
    width := r.width.getD 0
    height := r.height.getD 0
    isMaximized := r.isMaximized
    isFullScreen := r.isFullScreen }

/-- A fully-present state object back in loose form. -/
def ofWinState (w : WinState) : RawState :=
  { x := some w.x
    y := some w.y
    width := some w.width
    height := some w.height
    isMaximized := w.isMaximized
    isFullScreen := w.isFullScreen }

/-- `validateState` (src/index.js 89-99): discard a state that is neither
boundable nor mode-only; reconcile a boundable one against the displays;
pass a mode-only one through untouched. -/
def validateState (cfg : Config) (ds : List Rect) : Option RawState → Option RawState
  | none => none
  | some s =>
      if hasBounds s || truthy s.isMaximized || truthy s.isFullScreen then
        if hasBounds s then
          some (ofWinState (ensureWindowVisibleOnSomeDisplay cfg ds (toWinState s)))
        else some s
      else none

/-- The fallback merge at src/index.js 195-198:
`Object.assign({width: defaultWidth || 800, height: defaultHeight || 600}, state)`;
fields present on `state` win, absent ones take the default. -/
def mergeDefaults (cfg : Config) : Option RawState → RawState
  | none =>
      { x := none
        y := none
        width := some (jsOr cfg.defaultWidth 800)
        height := some (jsOr cfg.defaultHeight 600)
        isMaximized := none
        isFullScreen := none }
  | some s =>
      { s with
        width := some (s.width.getD (jsOr cfg.defaultWidth 800))
        height := some (s.height.getD (jsOr cfg.defaultHeight 600)) }

/-- The startup pipeline (src/index.js 180-198): load, validate against
the current displays, then merge fallback width/height. -/
def initState (cfg : Config) (ds : List Rect) (loaded : Option RawState) : RawState :=
  mergeDefaults cfg (validateState cfg ds loaded)

/-- Snapshot of the live browser-window handle, as read through
`getBounds()` / `isMaximized()` / `isMinimized()` / `isFullScreen()`. -/
structure WinHandle where
  bounds : Rect
  isMaximized : Bool
  isMinimized : Bool
  isFullScreen : Bool
deriving DecidableEq

/-- The predicate `isNormal` (src/index.js 24-26). -/
def isNormal (w : WinHandle) : Bool :=
  !w.isMaximized && !w.isMinimized && !w.isFullScreen

/-- `updateState` (src/index.js 101-118).  `none` covers both a missing
window (`!win` after the `win || winRef` fallback) and a destroyed one
whose reads throw: in either case the state is kept unchanged.  For a
live handle, normal mode overwrites the geometry from the live bounds,
and the mode flags are overwritten unconditionally. -/
def updateState (w? : Option WinHandle) (s : RawState) : RawState :=
  match w? with
  | none => s
  | some w =>
      let s1 :=
        if isNormal w then
          { s with
            x := some w.bounds.x
            y := some w.bounds.y
            width := some w.bounds.width
            height := some w.bounds.height }
        else s
      { s1 with isMaximized := some w.isMaximized, isFullScreen := some w.isFullScreen }

/-- State of the debounce machinery around `stateChangeHandler`
(src/index.js 139-143): the live window the pending `setTimeout` callback
would read, the in-memory record, whether a timer is pending
(`stateChangeTimer` holds an uncancelled callback), and an event counter
instrumenting how many `updateState` reads have run. -/
structure Sim where
  live : WinHandle
  record : RawState
  pending : Bool
  reads : Nat
deriving DecidableEq

/-- One `resize`/`move` event: the window's live geometry becomes `wb`,
and `stateChangeHandler` runs `clearTimeout` + `setTimeout`, i.e. any
pending deferred read is cancelled and a fresh one is scheduled.  No
state read happens here. -/
def stateChange (wb : WinHandle) (s : Sim) : Sim :=
  { s with live := wb, pending := true }

/-- Expiry of the debounce delay: if a callback is pending it runs
`updateState` against the live window once and clears the slot; with no
pending callback nothing happens. -/
def fireTimer (s : Sim) : Sim :=
  if s.pending then
    { s with
      pending := false
      record := updateState (some s.live) s.record
      reads := s.reads + 1 }
  else s

/-- A burst of `resize`/`move` events, each delivered before the debounce
delay of the previous one expired. -/
def runChanges (s : Sim) (ws : List WinHandle) : Sim :=
  ws.foldl (fun a w => stateChange w a) s

/-- The four window events the controller subscribes to
(src/index.js 162-165). -/
inductive WinEvent
  | resize
  | move
  | close
  | closed
deriving DecidableEq

/-- The three listener functions the controller registers. -/
inductive HandlerId
  | stateChangeHandler
  | closeHandler
  | closedHandler
deriving DecidableEq

/-- Listener-subscription state of one controller instance: the tracked
handle `winRef` and the set of `win.on(event, handler)` subscriptions,
in registration order, with windows identified by a `Nat` id.  (The
maximize/fullscreen application at the top of `manage` acts on the
window, not on this state, and is irrelevant to the listener claims.) -/
structure Controller where
  winRef : Option Nat
  listeners : List (Nat × WinEvent × HandlerId)
  timerPending : Bool
deriving DecidableEq

/-- `manage` (src/index.js 155-167): subscribe the four listeners on
`win` and track it in `winRef`.  The source removes nothing here. -/
def manage (c : Controller) (win : Nat) : Controller :=
  { c with
    winRef := some win
    listeners := c.listeners ++
      [(win, WinEvent.resize, HandlerId.stateChangeHandler),
       (win, WinEvent.move, HandlerId.stateChangeHandler),
       (win, WinEvent.close, HandlerId.closeHandler),
       (win, WinEvent.closed, HandlerId.closedHandler)] }

/-- `removeListener` drops at most one matching subscription. -/
def removeFirst : List (Nat × WinEvent × HandlerId) → Nat × WinEvent × HandlerId →
    List (Nat × WinEvent × HandlerId)
  | [], _ => []
  | x :: xs, e => if x = e then xs else x :: removeFirst xs e

/-- `unmanage` (src/index.js 169-178): with a tracked handle, remove its
four listeners, cancel any pending debounce timer and clear `winRef`;
with none tracked, a no-op. -/
def unmanage (c : Controller) : Controller :=
  match c.winRef with
  | some w =>
      { winRef := none
        timerPending := false
        listeners :=
          removeFirst (removeFirst (removeFirst (removeFirst c.listeners
            (w, WinEvent.resize, HandlerId.stateChangeHandler))
            (w, WinEvent.move, HandlerId.stateChangeHandler))
            (w, WinEvent.close, HandlerId.closeHandler))
            (w, WinEvent.closed, HandlerId.closedHandler) }
  | none => c

/-- Subscriptions held on a given window id. -/
def listenersOn (c : Controller) (win : Nat) : List (Nat × WinEvent × HandlerId) :=
  c.listeners.filter (fun p => p.1 == win)

/-! ### Helper lemmas about the geometry math -/

theorem moveWithinBounds_width (s : WinState) (b : Rect) :
    (moveWithinBounds s b).width = min s.width b.width := rfl

theorem moveWithinBounds_height (s : WinState) (b : Rect) :
    (moveWithinBounds s b).height = min s.height b.height := rfl

theorem moveWithinBounds_x (s : WinState) (b : Rect) :
    (moveWithinBounds s b).x = clampPos s.x (min s.width b.width) b.x b.width := rfl

theorem moveWithinBounds_y (s : WinState) (b : Rect) :
    (moveWithinBounds s b).y = clampPos s.y (min s.height b.height) b.y b.height := rfl

theorem moveWithinBounds_isMaximized (s : WinState) (b : Rect) :
    (moveWithinBounds s b).isMaximized = s.isMaximized := rfl

theorem moveWithinBounds_isFullScreen (s : WinState) (b : Rect) :
    (moveWithinBounds s b).isFullScreen = s.isFullScreen := rfl

/-- The translate step keeps both edges inside the target interval
whenever the (already shrunk) extent fits in it. -/
theorem clampPos_bounds (x w bx bw : ℚ) (hwb : w ≤ bw) :
    bx ≤ clampPos x w bx bw ∧ clampPos x w bx bw + w ≤ bx + bw := by
  unfold clampPos
  split_ifs with h1 h2
  · exact ⟨le_refl _, by linarith⟩
  · exact ⟨by linarith, by linarith⟩
  · exact ⟨by linarith, by linarith⟩

/-- On a positive-area state the overlap ratio is a real number (never
`NaN`) lying in `[0, 1]`. -/
theorem ratio_some_le_one (s : WinState) (b : Rect) (hw : 0 < s.width) (hh : 0 < s.height)
    (v : ℚ) (hv : partOfWindowWithinBounds s b = some v) : 0 ≤ v ∧ v ≤ 1 := by
  have hd : 0 < s.width * s.height := mul_pos hw hh
  simp only [partOfWindowWithinBounds, jdiv, if_neg hd.ne', Option.some.injEq] at hv
  have hvw0 : (0 : ℚ) ≤ max 0 (min (s.x + s.width) (b.x + b.width) - max s.x b.x) :=
    le_max_left 0 _
  have hvh0 : (0 : ℚ) ≤ max 0 (min (s.y + s.height) (b.y + b.height) - max s.y b.y) :=
    le_max_left 0 _
  have hvw1 : max 0 (min (s.x + s.width) (b.x + b.width) - max s.x b.x) ≤ s.width := by
    have h1 : min (s.x + s.width) (b.x + b.width) ≤ s.x + s.width := min_le_left _ _
    have h2 : s.x ≤ max s.x b.x := le_max_left _ _
    exact max_le hw.le (by linarith)
  have hvh1 : max 0 (min (s.y + s.height) (b.y + b.height) - max s.y b.y) ≤ s.height := by
    have h1 : min (s.y + s.height) (b.y + b.height) ≤ s.y + s.height := min_le_left _ _
    have h2 : s.y ≤ max s.y b.y := le_max_left _ _
    exact max_le hh.le (by linarith)
  subst hv
  constructor
  · exact div_nonneg (mul_nonneg hvw0 hvh0) hd.le
  · exact (div_le_one hd).mpr (mul_le_mul hvw1 hvh1 hvh0 hw.le)

/-- A positive-area state fully contained in the bounds has overlap
ratio exactly `1`. -/
theorem ratio_contained (s : WinState) (b : Rect) (hw : 0 < s.width) (hh : 0 < s.height)
    (h1 : b.x ≤ s.x) (h2 : s.x + s.width ≤ b.x + b.width)
    (h3 : b.y ≤ s.y) (h4 : s.y + s.height ≤ b.y + b.height) :
    partOfWindowWithinBounds s b = some 1 := by
  have hd : 0 < s.width * s.height := mul_pos hw hh
  simp only [partOfWindowWithinBounds, jdiv, if_neg hd.ne']
  rw [min_eq_left h2, max_eq_left h1, min_eq_left h4, max_eq_left h3,
    add_sub_cancel_left, add_sub_cancel_left, max_eq_right hw.le, max_eq_right hh.le,
    div_self hd.ne']

/-- A strictly positive overlap ratio forces the display bounds to have
positive width and height. -/
theorem ratio_pos_bounds (s : WinState) (b : Rect) (hw : 0 < s.width) (hh : 0 < s.height)
    (v : ℚ) (hv : partOfWindowWithinBounds s b = some v) (hpos : 0 < v) :
    0 < b.width ∧ 0 < b.height := by
  have hd : 0 < s.width * s.height := mul_pos hw hh
  simp only [partOfWindowWithinBounds, jdiv, if_neg hd.ne', Option.some.injEq] at hv
  rw [← hv] at hpos
  have hnum : 0 < max 0 (min (s.x + s.width) (b.x + b.width) - max s.x b.x) *
      max 0 (min (s.y + s.height) (b.y + b.height) - max s.y b.y) := by
    rcases div_pos_iff.mp hpos with ⟨ha, _⟩ | ⟨_, hb2⟩
    · exact ha
    · exact absurd hd (by linarith)
  have hvw : 0 < max 0 (min (s.x + s.width) (b.x + b.width) - max s.x b.x) := by
    rcases mul_pos_iff.mp hnum with ⟨ha, _⟩ | ⟨ha, _⟩
    · exact ha
    · exact absurd (le_max_left 0 _) (not_le.mpr ha)
  have hvh : 0 < max 0 (min (s.y + s.height) (b.y + b.height) - max s.y b.y) := by
    rcases mul_pos_iff.mp hnum with ⟨_, ha⟩ | ⟨_, ha⟩
    · exact ha
    · exact absurd (le_max_left 0 _) (not_le.mpr ha)
  constructor
  · have ht : 0 < min (s.x + s.width) (b.x + b.width) - max s.x b.x := by
      by_contra hc
      rw [max_eq_left (not_lt.mp hc)] at hvw
      exact lt_irrefl 0 hvw
    have hm1 : min (s.x + s.width) (b.x + b.width) ≤ b.x + b.width := min_le_right _ _
    have hm2 : b.x ≤ max s.x b.x := le_max_right _ _
    linarith
  · have ht : 0 < min (s.y + s.height) (b.y + b.height) - max s.y b.y := by
      by_contra hc
      rw [max_eq_left (not_lt.mp hc)] at hvh
      exact lt_irrefl 0 hvh
    have hm1 : min (s.y + s.height) (b.y + b.height) ≤ b.y + b.height := min_le_right _ _
    have hm2 : b.y ≤ max s.y b.y := le_max_right _ _
    linarith

/-- The clamped state lies edge-to-edge inside the target bounds. -/
theorem moveWithinBounds_within (s : WinState) (b : Rect) :
    b.x ≤ (moveWithinBounds s b).x ∧
    (moveWithinBounds s b).x + (moveWithinBounds s b).width ≤ b.x + b.width ∧
    b.y ≤ (moveWithinBounds s b).y ∧
    (moveWithinBounds s b).y + (moveWithinBounds s b).height ≤ b.y + b.height := by
  have hx := clampPos_bounds s.x (min s.width b.width) b.x b.width (min_le_right _ _)
  have hy := clampPos_bounds s.y (min s.height b.height) b.y b.height (min_le_right _ _)
  rw [moveWithinBounds_x, moveWithinBounds_y, moveWithinBounds_width, moveWithinBounds_height]
  exact ⟨hx.1, hx.2, hy.1, hy.2⟩

/-! ### Helper lemmas about the display scan -/

theorem scanDisplays_def (s : WinState) (ds : List Rect) :
    scanDisplays s ds = List.foldl (scanStep s) (none, 0) ds := rfl

/-- One scan step never lowers the best visibility. -/
theorem scanStep_snd_le (s : WinState) (acc : Option Rect × ℚ) (d : Rect) :
    acc.2 ≤ (scanStep s acc d).2 := by
  unfold scanStep
  cases hr : partOfWindowWithinBounds s d with
  | none => exact le_refl _
  | some v =>
    dsimp only
    split_ifs with h
    · exact le_of_lt h
    · exact le_refl _

/-- The best visibility is nondecreasing along the scan. -/
theorem scan_mono (s : WinState) (ds : List Rect) :
    ∀ acc : Option Rect × ℚ, acc.2 ≤ (List.foldl (scanStep s) acc ds).2 := by
  induction ds with
  | nil => intro acc; exact le_refl _
  | cons d ds ih =>
    intro acc
    rw [List.foldl_cons]
    exact le_trans (scanStep_snd_le s acc d) (ih _)

/-- When every display has overlap ratio `0`, the scan never updates the
accumulator: no display is recorded as best. -/
theorem scan_zero (s : WinState) (ds : List Rect)
    (h0 : ∀ b ∈ ds, partOfWindowWithinBounds s b = some 0) :
    ∀ acc : Option Rect × ℚ, 0 ≤ acc.2 → List.foldl (scanStep s) acc ds = acc := by
  induction ds with
  | nil => intro acc _; rfl
  | cons d ds ih =>
    intro acc hacc
    have hd := h0 d (List.mem_cons_self d ds)
    have hstep : scanStep s acc d = acc := by
      simp only [scanStep, hd]
      rw [if_neg (not_lt.mpr hacc)]
    rw [List.foldl_cons, hstep]
    exact ih (fun b hb => h0 b (List.mem_cons_of_mem d hb)) acc hacc

/-- Once some display has overlap ratio `1` (and no ratio exceeds `1`),
the scan ends with best visibility exactly `1` and a recorded best
display. -/
theorem scan_hits_one (s : WinState) (ds : List Rect)
    (hle : ∀ b ∈ ds, ∀ v, partOfWindowWithinBounds s b = some v → v ≤ 1) :
    ∀ acc : Option Rect × ℚ, acc.2 ≤ 1 → (acc.1 = none → acc.2 = 0) →
      ((∃ b ∈ ds, partOfWindowWithinBounds s b = some 1) ∨ acc.2 = 1) →
      (List.foldl (scanStep s) acc ds).2 = 1 ∧ (List.foldl (scanStep s) acc ds).1 ≠ none := by
  induction ds with
  | nil =>
    intro acc hacc hinv hhit
    rcases hhit with ⟨b, hb, _⟩ | h1
    · exact absurd hb (List.not_mem_nil b)
    · refine ⟨h1, fun hnone => ?_⟩
      rw [hinv hnone] at h1
      norm_num at h1
  | cons d ds ih =>
    intro acc hacc hinv hhit
    rw [List.foldl_cons]
    have hle' : ∀ b ∈ ds, ∀ v, partOfWindowWithinBounds s b = some v → v ≤ 1 :=
      fun b hb => hle b (List.mem_cons_of_mem d hb)
    have hacc' : (scanStep s acc d).2 ≤ 1 := by
      unfold scanStep
      cases hr : partOfWindowWithinBounds s d with
      | none => exact hacc
      | some v =>
        dsimp only
        split_ifs with h
        · exact hle d (List.mem_cons_self d ds) v hr
        · exact hacc
    have hinv' : (scanStep s acc d).1 = none → (scanStep s acc d).2 = 0 := by
      unfold scanStep
      cases hr : partOfWindowWithinBounds s d with
      | none => exact hinv
      | some v =>
        dsimp only
        split_ifs with h
        · intro hc; exact absurd hc (by simp)
        · exact hinv
    apply ih hle' _ hacc' hinv'
    rcases hhit with ⟨b, hb, hb1⟩ | h1
    · rcases List.mem_cons.mp hb with rfl | hmem
      · by_cases hlt : acc.2 < 1
        · right
          simp only [scanStep, hb1]
          rw [if_pos hlt]
        · right
          have heq : acc.2 = 1 := le_antisymm hacc (not_lt.mp hlt)
          simp only [scanStep, hb1]
          rw [if_neg hlt]
          exact heq
      · left; exact ⟨b, hmem, hb1⟩
    · right
      unfold scanStep
      cases hr : partOfWindowWithinBounds s d with
      | none => exact h1
      | some v =>
        dsimp only
        have hv1 : v ≤ 1 := hle d (List.mem_cons_self d ds) v hr
        rw [if_neg (by rw [h1]; exact not_lt.mpr hv1)]
        exact h1

/-- Characterization of the scan result: either nothing was recorded and
the best visibility is still `0`, or the recorded display satisfies `C`
(instantiated with list membership) and realizes the recorded best
visibility. -/
theorem scan_charac (s : WinState) (C : Rect → Prop) (ds : List Rect) (hC : ∀ d ∈ ds, C d) :
    ∀ acc : Option Rect × ℚ,
      ((acc.1 = none ∧ acc.2 = 0) ∨
        ∃ b, acc.1 = some b ∧ C b ∧ partOfWindowWithinBounds s b = some acc.2) →
      (((List.foldl (scanStep s) acc ds).1 = none ∧ (List.foldl (scanStep s) acc ds).2 = 0) ∨
        ∃ b, (List.foldl (scanStep s) acc ds).1 = some b ∧ C b ∧
          partOfWindowWithinBounds s b = some (List.foldl (scanStep s) acc ds).2) := by
  induction ds with
  | nil => intro acc h; exact h
  | cons d ds ih =>
    intro acc hacc
    rw [List.foldl_cons]
    apply ih (fun b hb => hC b (List.mem_cons_of_mem d hb))
    cases hr : partOfWindowWithinBounds s d with
    | none =>
      simp only [scanStep, hr]
      exact hacc
    | some v =>
      by_cases hlt : acc.2 < v
      · right
        refine ⟨d, ?_, hC d (List.mem_cons_self d ds), ?_⟩
        · simp only [scanStep, hr]
          rw [if_pos hlt]
        · simp only [scanStep, hr]
          rw [if_pos hlt]
      · simp only [scanStep, hr]
        rw [if_neg hlt]
        exact hacc

/-- If some display has strictly positive overlap ratio, the scan ends
with strictly positive best visibility. -/
theorem scan_pos_of_mem (s : WinState) (ds : List Rect) (b : Rect) (hb : b ∈ ds)
    (v : ℚ) (hr : partOfWindowWithinBounds s b = some v) (hv : 0 < v) :
    ∀ acc : Option Rect × ℚ, 0 < (List.foldl (scanStep s) acc ds).2 := by
  induction ds with
  | nil => exact absurd hb (List.not_mem_nil b)
  | cons d ds ih =>
    intro acc
    rw [List.foldl_cons]
    rcases List.mem_cons.mp hb with rfl | hmem
    · have hstep : 0 < (scanStep s acc b).2 := by
        simp only [scanStep, hr]
        split_ifs with h
        · exact hv
        · exact lt_of_lt_of_le hv (not_lt.mp h)
      exact lt_of_lt_of_le hstep (scan_mono s ds _)
    · exact ih hmem _

/-! ### Helper lemmas about the reconciler -/

/-- A positive-area state fully contained in some listed display is left
untouched by the reconciler: the scan ends at best visibility `1`, which
short-circuits the clamp. -/
theorem ensure_of_contained (cfg : Config) (ds : List Rect) (s : WinState) (b : Rect)
    (hb : b ∈ ds) (hw : 0 < s.width) (hh : 0 < s.height)
    (h1 : b.x ≤ s.x) (h2 : s.x + s.width ≤ b.x + b.width)
    (h3 : b.y ≤ s.y) (h4 : s.y + s.height ≤ b.y + b.height) :
    ensureWindowVisibleOnSomeDisplay cfg ds s = s := by
  have hle : ∀ b' ∈ ds, ∀ v, partOfWindowWithinBounds s b' = some v → v ≤ 1 :=
    fun b' _ v hv => (ratio_some_le_one s b' hw hh v hv).2
  have hhit := scan_hits_one s ds hle (none, 0) (by norm_num) (fun _ => rfl)
    (Or.inl ⟨b, hb, ratio_contained s b hw hh h1 h2 h3 h4⟩)
  rw [← scanDisplays_def] at hhit
  rcases hsd : scanDisplays s ds with ⟨r1, r2⟩
  rw [hsd] at hhit
  obtain ⟨b2, hb2⟩ := Option.ne_none_iff_exists'.mp hhit.2
  unfold ensureWindowVisibleOnSomeDisplay
  rw [hsd]
  dsimp only at hb2 hhit ⊢
  rw [hb2, hhit.1]
  dsimp only
  rw [if_neg (lt_irrefl 1)]

/-! ### Claims -/

/-- Claim C1, counterexample: on the zero-area rectangle
`{x:0, y:0, width:0, height:5}` the source's unguarded division yields
`0/0`, i.e. `NaN` (modelled `none`), not the ratio `0` the claim
asserts. -/
theorem c1_zero_area_counterexample :
    partOfWindowWithinBounds ⟨0, 0, 0, 5, none, none⟩ ⟨0, 0, 10, 10⟩ = none ∧
    partOfWindowWithinBounds ⟨0, 0, 0, 5, none, none⟩ ⟨0, 0, 10, 10⟩ ≠ some 0 := by
  have h : partOfWindowWithinBounds ⟨0, 0, 0, 5, none, none⟩ ⟨0, 0, 10, 10⟩ = none := by
    norm_num [partOfWindowWithinBounds, jdiv]
  exact ⟨h, by rw [h]; exact fun hc => Option.noConfusion hc⟩

/-- Claim C1, amended: for every rectangle with zero area (width = 0 or
height = 0) `partOfWindowWithinBounds` evaluates the unguarded `0/0`,
returning `NaN` (modelled `none`) for any bounds — not `0`, but also not
an error. -/
theorem c1_zero_area_nan (s : WinState) (b : Rect) (h : s.width = 0 ∨ s.height = 0) :
    partOfWindowWithinBounds s b = none := by
  have hd : s.width * s.height = 0 := by
    rcases h with h | h <;> rw [h] <;> ring
  simp only [partOfWindowWithinBounds, jdiv]
  rw [if_pos hd]

/-- Witness for C1 amended at a concrete zero-area rectangle. -/
theorem c1_zero_area_nan_witness :
    partOfWindowWithinBounds ⟨3, 4, 0, 5, none, none⟩ ⟨0, 0, 10, 10⟩ = none :=
  c1_zero_area_nan ⟨3, 4, 0, 5, none, none⟩ ⟨0, 0, 10, 10⟩ (Or.inl rfl)

/-- Claim C2, counterexample: after `manage(1)` followed by `manage(2)`
with no `unmanage`, handle 1 still holds subscriptions — `manage` never
removes the prior handle's listeners. -/
theorem c2_manage_again_counterexample :
    listenersOn (manage (manage ⟨none, [], false⟩ 1) 2) 1 ≠ [] := by decide

/-- Claim C2, amended: calling `manage(h2)` before `unmanage()` replaces
the tracked handle, but the prior handle `h1` keeps all four of its
resize/move/close/closed subscriptions; nothing is torn down. -/
theorem c2_manage_again_keeps_prior_listeners (c : Controller) (h1 h2 : Nat) (hne : h1 ≠ h2) :
    (manage (manage c h1) h2).winRef = some h2 ∧
    listenersOn (manage (manage c h1) h2) h1 =
      listenersOn c h1 ++
        [(h1, WinEvent.resize, HandlerId.stateChangeHandler),
         (h1, WinEvent.move, HandlerId.stateChangeHandler),
         (h1, WinEvent.close, HandlerId.closeHandler),
         (h1, WinEvent.closed, HandlerId.closedHandler)] := by
  refine ⟨rfl, ?_⟩
  have hb : (h2 == h1) = false := by
    simp only [beq_eq_false_iff_ne, ne_eq]
    exact Ne.symm hne
  simp [listenersOn, manage, List.filter_append, hb]

/-- Witness for C2 amended on a fresh controller with handles 1 and 2. -/
theorem c2_manage_again_keeps_prior_listeners_witness :
    (manage (manage ⟨none, [], false⟩ 1) 2).winRef = some 2 ∧
    listenersOn (manage (manage ⟨none, [], false⟩ 1) 2) 1 =
      listenersOn ⟨none, [], false⟩ 1 ++
        [(1, WinEvent.resize, HandlerId.stateChangeHandler),
         (1, WinEvent.move, HandlerId.stateChangeHandler),
         (1, WinEvent.close, HandlerId.closeHandler),
         (1, WinEvent.closed, HandlerId.closedHandler)] :=
  c2_manage_again_keeps_prior_listeners ⟨none, [], false⟩ 1 2 (by decide)

/-- Claim C3: a positive-area record fully inside some listed display has
overlap ratio `1` with that display, reconciliation returns it unchanged,
and a second reconciliation with the same display set is also a no-op. -/
theorem c3_contained_fixed_point (cfg : Config) (ds : List Rect) (s : WinState) (b : Rect)
    (hb : b ∈ ds) (hw : 0 < s.width) (hh : 0 < s.height)
    (h1 : b.x ≤ s.x) (h2 : s.x + s.width ≤ b.x + b.width)
    (h3 : b.y ≤ s.y) (h4 : s.y + s.height ≤ b.y + b.height) :
    partOfWindowWithinBounds s b = some 1 ∧
    ensureWindowVisibleOnSomeDisplay cfg ds s = s ∧
    ensureWindowVisibleOnSomeDisplay cfg ds (ensureWindowVisibleOnSomeDisplay cfg ds s) = s := by
  have hfix := ensure_of_contained cfg ds s b hb hw hh h1 h2 h3 h4
  exact ⟨ratio_contained s b hw hh h1 h2 h3 h4, hfix, by rw [hfix, hfix]⟩

/-- Witness for C3: record `{x:100, y:100, width:200, height:150}` inside
display `{x:0, y:0, width:1000, height:800}`. -/
theorem c3_contained_fixed_point_witness :
    partOfWindowWithinBounds ⟨100, 100, 200, 150, none, none⟩ ⟨0, 0, 1000, 800⟩ = some 1 ∧
    ensureWindowVisibleOnSomeDisplay ⟨none, none⟩ [⟨0, 0, 1000, 800⟩]
        ⟨100, 100, 200, 150, none, none⟩ = ⟨100, 100, 200, 150, none, none⟩ ∧
    ensureWindowVisibleOnSomeDisplay ⟨none, none⟩ [⟨0, 0, 1000, 800⟩]
        (ensureWindowVisibleOnSomeDisplay ⟨none, none⟩ [⟨0, 0, 1000, 800⟩]
          ⟨100, 100, 200, 150, none, none⟩) = ⟨100, 100, 200, 150, none, none⟩ :=
  c3_contained_fixed_point ⟨none, none⟩ [⟨0, 0, 1000, 800⟩] ⟨100, 100, 200, 150, none, none⟩
    ⟨0, 0, 1000, 800⟩ (List.mem_singleton.mpr rfl) (by norm_num) (by norm_num)
    (by norm_num) (by norm_num) (by norm_num) (by norm_num)

/-- Claim C4: a record with zero overlap ratio on every attached display
is reset to exactly `{width: defaultWidth || 800, height: defaultHeight
|| 600, x: 0, y: 0}` with both mode flags absent. -/
theorem c4_reset_on_invisible (cfg : Config) (ds : List Rect) (s : WinState)
    (hzero : ∀ b ∈ ds, partOfWindowWithinBounds s b = some 0) :
    ensureWindowVisibleOnSomeDisplay cfg ds s =
      { x := 0, y := 0
        width := jsOr cfg.defaultWidth 800
        height := jsOr cfg.defaultHeight 600
        isMaximized := none
        isFullScreen := none } := by
  have hscan : scanDisplays s ds = (none, 0) := by
    rw [scanDisplays_def]
    exact scan_zero s ds hzero (none, 0) le_rfl
  unfold ensureWindowVisibleOnSomeDisplay
  rw [hscan]
  rfl

/-- Witness for C4: the spec's scenario, record
`{x:2000, y:0, width:800, height:600}` against the single display
`{x:0, y:0, width:1000, height:800}`. -/
theorem c4_reset_on_invisible_witness :
    ensureWindowVisibleOnSomeDisplay ⟨none, none⟩ [⟨0, 0, 1000, 800⟩]
        ⟨2000, 0, 800, 600, none, none⟩ =
      { x := 0, y := 0, width := jsOr none 800, height := jsOr none 600
        isMaximized := none, isFullScreen := none } :=
  c4_reset_on_invisible ⟨none, none⟩ [⟨0, 0, 1000, 800⟩] ⟨2000, 0, 800, 600, none, none⟩ (by
    intro b hb
    rw [List.mem_singleton] at hb
    subst hb
    norm_num [partOfWindowWithinBounds, jdiv, min_def, max_def])

/-- Claim C5: for a rectangle (nonnegative extents) and bounds with
positive width and height, `moveWithinBounds` produces extents at most
the bounds' extents and edges inside the bounds; and the spec's concrete
scenario clamps `{x:900, y:0, width:800, height:600}` into
`{x:0, y:0, width:1000, height:800}` as `{x:200, y:0, width:800,
height:600}`. -/
theorem c5_clamp_within (s : WinState) (b : Rect)
    (hbw : 0 < b.width) (hbh : 0 < b.height) (hw : 0 ≤ s.width) (hh : 0 ≤ s.height) :
    (0 ≤ (moveWithinBounds s b).width ∧ (moveWithinBounds s b).width ≤ b.width ∧
     0 ≤ (moveWithinBounds s b).height ∧ (moveWithinBounds s b).height ≤ b.height ∧
     b.x ≤ (moveWithinBounds s b).x ∧
     (moveWithinBounds s b).x + (moveWithinBounds s b).width ≤ b.x + b.width ∧
     b.y ≤ (moveWithinBounds s b).y ∧
     (moveWithinBounds s b).y + (moveWithinBounds s b).height ≤ b.y + b.height) ∧
    moveWithinBounds ⟨900, 0, 800, 600, none, none⟩ ⟨0, 0, 1000, 800⟩ =
      ⟨200, 0, 800, 600, none, none⟩ := by
  have hwithin := moveWithinBounds_within s b
  refine ⟨⟨?_, ?_, ?_, ?_, hwithin.1, hwithin.2.1, hwithin.2.2.1, hwithin.2.2.2⟩, ?_⟩
  · rw [moveWithinBounds_width]; exact le_min hw hbw.le
  · rw [moveWithinBounds_width]; exact min_le_right _ _
  · rw [moveWithinBounds_height]; exact le_min hh hbh.le
  · rw [moveWithinBounds_height]; exact min_le_right _ _
  · norm_num [moveWithinBounds, clampPos, min_def]

/-- Witness for C5 at the spec's scenario inputs. -/
theorem c5_clamp_within_witness :
    (0 : ℚ) < 1000 ∧
    moveWithinBounds ⟨900, 0, 800, 600, none, none⟩ ⟨0, 0, 1000, 800⟩ =
      ⟨200, 0, 800, 600, none, none⟩ :=
  ⟨by norm_num,
    (c5_clamp_within ⟨900, 0, 800, 600, none, none⟩ ⟨0, 0, 1000, 800⟩
      (by norm_num) (by norm_num) (by norm_num) (by norm_num)).2⟩

/-- Claim C6: a record that is not boundable but has a truthy
isMaximized or isFullScreen passes `validateState` unchanged, for every
display list — display reconciliation is never invoked on it. -/
theorem c6_mode_only_passthrough (cfg : Config) (ds : List Rect) (s : RawState)
    (hnb : hasBounds s = false)
    (hmode : (truthy s.isMaximized || truthy s.isFullScreen) = true) :
    validateState cfg ds (some s) = some s := by
  simp [validateState, hnb, hmode]

/-- Witness for C6 on the mode-only record `{isMaximized: true}`. -/
theorem c6_mode_only_passthrough_witness :
    validateState ⟨none, none⟩ [⟨0, 0, 1000, 800⟩]
        (some ⟨none, none, none, none, some true, none⟩) =
      some ⟨none, none, none, none, some true, none⟩ :=
  c6_mode_only_passthrough ⟨none, none⟩ [⟨0, 0, 1000, 800⟩]
    ⟨none, none, none, none, some true, none⟩ (by decide) (by decide)

/-- Claim C7: an absent record, or one that is neither boundable nor
mode-only, is discarded by validation, and the startup merge then yields
exactly `{width: defaultWidth || 800, height: defaultHeight || 600}`
with x, y and both mode flags absent. -/
theorem c7_invalid_discarded (cfg : Config) (ds : List Rect) (loaded : Option RawState)
    (h : loaded = none ∨ ∃ s, loaded = some s ∧ hasBounds s = false ∧
      truthy s.isMaximized = false ∧ truthy s.isFullScreen = false) :
    validateState cfg ds loaded = none ∧
    initState cfg ds loaded =
      { x := none, y := none
        width := some (jsOr cfg.defaultWidth 800)
        height := some (jsOr cfg.defaultHeight 600)
        isMaximized := none
        isFullScreen := none } := by
  have hval : validateState cfg ds loaded = none := by
    rcases h with rfl | ⟨s, rfl, hnb, hm, hf⟩
    · rfl
    · simp [validateState, hnb, hm, hf]
  refine ⟨hval, ?_⟩
  unfold initState
  rw [hval]
  rfl

/-- Witness for C7 on the record `{x: 0.5, y: 0, width: 800, height:
600}` (non-integer x, no mode flags). -/
theorem c7_invalid_discarded_witness :
    validateState ⟨none, none⟩ []
        (some ⟨some (1/2), some 0, some 800, some 600, none, none⟩) = none ∧
    initState ⟨none, none⟩ []
        (some ⟨some (1/2), some 0, some 800, some 600, none, none⟩) =
      { x := none, y := none, width := some (jsOr none 800), height := some (jsOr none 600)
        isMaximized := none, isFullScreen := none } :=
  c7_invalid_discarded ⟨none, none⟩ []
    (some ⟨some (1/2), some 0, some 800, some 600, none, none⟩)
    (Or.inr ⟨⟨some (1/2), some 0, some 800, some 600, none, none⟩, rfl,
      by norm_num [hasBounds, isInt], rfl, rfl⟩)

/-- Claim C8: on a successful read of a live window, normal mode
overwrites x/y/width/height from the live bounds and any other mode
leaves them unchanged; isMaximized/isFullScreen are overwritten in every
mode. -/
theorem c8_update_overwrite (w : WinHandle) (s : RawState) :
    (updateState (some w) s).isMaximized = some w.isMaximized ∧
    (updateState (some w) s).isFullScreen = some w.isFullScreen ∧
    (updateState (some w) s).x = (if isNormal w then some w.bounds.x else s.x) ∧
    (updateState (some w) s).y = (if isNormal w then some w.bounds.y else s.y) ∧
    (updateState (some w) s).width = (if isNormal w then some w.bounds.width else s.width) ∧
    (updateState (some w) s).height = (if isNormal w then some w.bounds.height else s.height) := by
  by_cases h : isNormal w <;> simp [updateState, h]

/-- Claim C9: any burst of resize/move events followed by one expiry of
the debounce delay performs exactly one state read, and that read uses
the window's geometry after the final event of the burst. -/
theorem c9_debounce_coalesces (s0 : Sim) (ws : List WinHandle) (wlast : WinHandle)
    (_hp : s0.pending = false) (hr : s0.reads = 0) :
    (fireTimer (runChanges s0 (ws ++ [wlast]))).reads = 1 ∧
    (fireTimer (runChanges s0 (ws ++ [wlast]))).record =
      updateState (some wlast) s0.record := by
  have hrun : ∀ (l : List WinHandle) (t : Sim),
      (runChanges t l).record = t.record ∧ (runChanges t l).reads = t.reads := by
    intro l
    induction l with
    | nil => exact fun t => ⟨rfl, rfl⟩
    | cons w l ih => exact fun t => ⟨(ih _).1, (ih _).2⟩
  have happ : runChanges s0 (ws ++ [wlast]) = stateChange wlast (runChanges s0 ws) := by
    unfold runChanges
    rw [List.foldl_append]
    rfl
  rw [happ]
  unfold fireTimer stateChange
  simp only [if_pos]
  exact ⟨by rw [(hrun ws s0).2, hr], by rw [(hrun ws s0).1]⟩

/-- Witness for C9: three concrete resize events then the timer. -/
theorem c9_debounce_coalesces_witness :
    (fireTimer (runChanges
        ⟨⟨⟨0, 0, 1, 1⟩, false, false, false⟩, ⟨none, none, none, none, none, none⟩, false, 0⟩
        ([⟨⟨1, 0, 10, 10⟩, false, false, false⟩, ⟨⟨2, 0, 20, 20⟩, false, false, false⟩] ++
          [⟨⟨3, 0, 30, 30⟩, false, false, false⟩]))).reads = 1 ∧
    (fireTimer (runChanges
        ⟨⟨⟨0, 0, 1, 1⟩, false, false, false⟩, ⟨none, none, none, none, none, none⟩, false, 0⟩
        ([⟨⟨1, 0, 10, 10⟩, false, false, false⟩, ⟨⟨2, 0, 20, 20⟩, false, false, false⟩] ++
          [⟨⟨3, 0, 30, 30⟩, false, false, false⟩]))).record =
      updateState (some ⟨⟨3, 0, 30, 30⟩, false, false, false⟩)
        (⟨⟨⟨0, 0, 1, 1⟩, false, false, false⟩,
          ⟨none, none, none, none, none, none⟩, false, 0⟩ : Sim).record :=
  c9_debounce_coalesces
    ⟨⟨⟨0, 0, 1, 1⟩, false, false, false⟩, ⟨none, none, none, none, none, none⟩, false, 0⟩
    [⟨⟨1, 0, 10, 10⟩, false, false, false⟩, ⟨⟨2, 0, 20, 20⟩, false, false, false⟩]
    ⟨⟨3, 0, 30, 30⟩, false, false, false⟩ rfl rfl

/-- Claim C10, counterexample: with the single display
`{x:700, y:0, width:1000, height:800}` (positive extents) and the
boundable record `{x:-10000, y:-10000, width:5, height:5}`, the first
reconciliation resets to `{x:0, y:0, width:800, height:600}` and the
second clamps that reset record to `{x:700, ...}` — reconciliation is
not idempotent for every boundable record. -/
theorem c10_idem_counterexample :
    ensureWindowVisibleOnSomeDisplay ⟨none, none⟩ [⟨700, 0, 1000, 800⟩]
        (ensureWindowVisibleOnSomeDisplay ⟨none, none⟩ [⟨700, 0, 1000, 800⟩]
          ⟨-10000, -10000, 5, 5, none, none⟩) ≠
      ensureWindowVisibleOnSomeDisplay ⟨none, none⟩ [⟨700, 0, 1000, 800⟩]
        ⟨-10000, -10000, 5, 5, none, none⟩ := by
  have h1 : ensureWindowVisibleOnSomeDisplay ⟨none, none⟩ [⟨700, 0, 1000, 800⟩]
      ⟨-10000, -10000, 5, 5, none, none⟩ = ⟨0, 0, 800, 600, none, none⟩ := by
    norm_num [ensureWindowVisibleOnSomeDisplay, scanDisplays, scanStep, partOfWindowWithinBounds,
      jdiv, min_def, max_def, resetStateToDefault, jsOr]
  have h2 : ensureWindowVisibleOnSomeDisplay ⟨none, none⟩ [⟨700, 0, 1000, 800⟩]
      ⟨0, 0, 800, 600, none, none⟩ = ⟨700, 0, 800, 600, none, none⟩ := by
    norm_num [ensureWindowVisibleOnSomeDisplay, scanDisplays, scanStep, partOfWindowWithinBounds,
      jdiv, min_def, max_def, moveWithinBounds, clampPos]
  rw [h1, h2]
  intro hc
  have := congrArg WinState.x hc
  norm_num at this

/-- Claim C10, amended: reconciliation is idempotent for every
positive-area record having strictly positive overlap with at least one
listed display (a clamped record is fully contained in the recorded best
display, and a fully visible one is untouched); the reset branch is the
one exception exhibited by the counterexample. -/
theorem c10_idem_of_overlap (cfg : Config) (ds : List Rect) (s : WinState)
    (hw : 0 < s.width) (hh : 0 < s.height)
    (hpos : ∃ b ∈ ds, ∃ v, partOfWindowWithinBounds s b = some v ∧ 0 < v) :
    ensureWindowVisibleOnSomeDisplay cfg ds (ensureWindowVisibleOnSomeDisplay cfg ds s) =
      ensureWindowVisibleOnSomeDisplay cfg ds s := by
  obtain ⟨b, hb, v, hrb, hv⟩ := hpos
  have hscanpos : 0 < (scanDisplays s ds).2 := by
    rw [scanDisplays_def]
    exact scan_pos_of_mem s ds b hb v hrb hv (none, 0)
  have hchar := scan_charac s (· ∈ ds) ds (fun d hd => hd) (none, 0) (Or.inl ⟨rfl, rfl⟩)
  rw [← scanDisplays_def] at hchar
  rcases hsd : scanDisplays s ds with ⟨r1, r2⟩
  rw [hsd] at hscanpos hchar
  dsimp only at hscanpos hchar
  rcases hchar with ⟨_, hzero⟩ | ⟨bb, hbb, hbbmem, hbbr⟩
  · rw [hzero] at hscanpos
    exact absurd hscanpos (lt_irrefl 0)
  · subst hbb
    by_cases hlt : r2 < 1
    · have hens : ensureWindowVisibleOnSomeDisplay cfg ds s = moveWithinBounds s bb := by
        unfold ensureWindowVisibleOnSomeDisplay
        rw [hsd]
        dsimp only
        rw [if_pos hlt]
      have hbp := ratio_pos_bounds s bb hw hh r2 hbbr hscanpos
      have hwithin := moveWithinBounds_within s bb
      have hw2 : 0 < (moveWithinBounds s bb).width := by
        rw [moveWithinBounds_width]
        exact lt_min hw hbp.1
      have hh2 : 0 < (moveWithinBounds s bb).height := by
        rw [moveWithinBounds_height]
        exact lt_min hh hbp.2
      rw [hens]
      exact ensure_of_contained cfg ds (moveWithinBounds s bb) bb hbbmem hw2 hh2
        hwithin.1 hwithin.2.1 hwithin.2.2.1 hwithin.2.2.2
    · have hens : ensureWindowVisibleOnSomeDisplay cfg ds s = s := by
        unfold ensureWindowVisibleOnSomeDisplay
        rw [hsd]
        dsimp only
        rw [if_neg hlt]
      rw [hens]
      exact hens

/-- Witness for C10 amended: the partially visible record
`{x:900, y:0, width:800, height:600}` against display
`{x:0, y:0, width:1000, height:800}`. -/
theorem c10_idem_of_overlap_witness :
    ensureWindowVisibleOnSomeDisplay ⟨none, none⟩ [⟨0, 0, 1000, 800⟩]
        (ensureWindowVisibleOnSomeDisplay ⟨none, none⟩ [⟨0, 0, 1000, 800⟩]
          ⟨900, 0, 800, 600, none, none⟩) =
      ensureWindowVisibleOnSomeDisplay ⟨none, none⟩ [⟨0, 0, 1000, 800⟩]
        ⟨900, 0, 800, 600, none, none⟩ :=
  c10_idem_of_overlap ⟨none, none⟩ [⟨0, 0, 1000, 800⟩] ⟨900, 0, 800, 600, none, none⟩
    (by norm_num) (by norm_num)
    ⟨⟨0, 0, 1000, 800⟩, List.mem_singleton.mpr rfl, 1/8,
      by norm_num [partOfWindowWithinBounds, jdiv, min_def, max_def], by norm_num⟩

end ElectronWindowState
